import Mathlib

/-!
Verification of the session and RBAC authorization core of the
`librarymanagementsystem` repository (Go), shallowly embedded in Lean 4.

Embedding conventions:
* `time.Time` values and `time.Duration` instants are modelled as `Int`
  nanoseconds (Go's `time.Duration` unit); `time.Now()` becomes an explicit
  `now : Int` parameter.
* The cryptographically random token produced by `generateToken` becomes an
  explicit `token : String` parameter of `createSession`.
* The Go map `map[string]*Session` is modelled as an association list with
  map semantics (insert overwrites, delete removes the key); claims are
  stated through `lookup`, never through the internal list order.
* Fallible operations return `Except` / `Option`; storage-layer failures of
  the SQL driver are outside the model (every modelled query is total).
-/

deriving instance DecidableEq for Except

namespace LibraryMS

/-- Error taxonomy of `internal/auth/session.go` (`ErrNoAuthHeader`,
`ErrInvalidAuthType`, `ErrInvalidToken`). -/
inductive AuthError where
  | noAuthHeader
  | invalidAuthType
  | invalidToken
deriving DecidableEq, Repr

/-- `auth.Session`: user id, username and absolute expiry instant. -/
structure Session where
  userID : Int
  username : String
  expiresAt : Int
deriving DecidableEq, Repr

/-- `auth.SessionManager`: the in-memory token registry
(`sessions map[string]*Session`). -/
structure SessionManager where
  sessions : List (String × Session)
deriving DecidableEq, Repr

/-- `NewSessionManager`: empty registry. -/
def newSessionManager : SessionManager := ⟨[]⟩

/-- Go map read `sm.sessions[token]`. -/
def SessionManager.lookup (sm : SessionManager) (token : String) : Option Session :=
  (sm.sessions.find? (fun e => e.1 == token)).map Prod.snd

/-- Go map delete `delete(sm.sessions, token)`. -/
def SessionManager.erase (sm : SessionManager) (token : String) : SessionManager :=
  ⟨sm.sessions.filter (fun e => e.1 != token)⟩

/-- Go map write `sm.sessions[token] = s` (overwrites any previous binding). -/
def SessionManager.insert (sm : SessionManager) (token : String) (s : Session) :
    SessionManager :=
  ⟨(token, s) :: (sm.erase token).sessions⟩

/-- The fixed session TTL: `24 * time.Hour` in nanoseconds. -/
def sessionTTL : Int := 24 * 60 * 60 * 1000000000

/-- `CreateSession`: stores a `Session` expiring at `now + 24h` under the
freshly generated `token` and returns it (the token is a parameter here,
see the embedding conventions). -/
def createSession (sm : SessionManager) (token : String) (userID : Int)
    (username : String) (now : Int) : SessionManager :=
  sm.insert token ⟨userID, username, now + sessionTTL⟩

/-- `ValidateSession`: looks the token up; absent ⇒ `ErrInvalidToken`;
present with `time.Now().After(session.ExpiresAt)` (strictly later) ⇒ evict
and `ErrInvalidToken`; otherwise return the session unchanged.  Returns the
updated registry together with the result. -/
def validateSession (sm : SessionManager) (token : String) (now : Int) :
    SessionManager × Except AuthError Session :=
  match sm.lookup token with
  | none => (sm, .error .invalidToken)
  | some sess =>
    if now > sess.expiresAt then (sm.erase token, .error .invalidToken)
    else (sm, .ok sess)

/-- `DestroySession`: unconditional delete. -/
def destroySession (sm : SessionManager) (token : String) : SessionManager :=
  sm.erase token

/-- `CleanupExpiredSessions`: evict every entry with `now.After(expiresAt)`. -/
def cleanupExpiredSessions (sm : SessionManager) (now : Int) : SessionManager :=
  ⟨sm.sessions.filter (fun e => ! decide (now > e.2.expiresAt))⟩

/-- Go `strings.Split(·, " ")` on the character list (split around every
space, empty fields preserved; `Split("", " ") = [""]`). -/
def splitSpacesChars : List Char → List (List Char)
  | [] => [[]]
  | c :: rest =>
    let r := splitSpacesChars rest
    if c = ' ' then [] :: r
    else
      match r with
      | [] => [[c]]
      | w :: ws => (c :: w) :: ws

/-- Go `strings.Split(s, " ")`. -/
def splitSpaces (s : String) : List String :=
  (splitSpacesChars s.data).map String.mk

/-- An inbound `*http.Request`, restricted to what `GetSessionToken` reads:
the `session_token` cookie (`none` when `r.Cookie` errors, i.e. the cookie
is absent) and the `Authorization` header (`""` when absent, as Go's
`Header.Get` returns the empty string then). -/
structure Request where
  sessionCookie : Option String
  authHeader : String
deriving DecidableEq, Repr

/-- `GetSessionToken`: cookie first; else `ErrNoAuthHeader` on an empty
header; else split on spaces and require exactly `["Bearer", token]`. -/
def getSessionToken (r : Request) : Except AuthError String :=
  match r.sessionCookie with
  | some v => .ok v
  | none =>
    if r.authHeader = "" then .error .noAuthHeader
    else
      match splitSpaces r.authHeader with
      | [scheme, tok] => if scheme = "Bearer" then .ok tok else .error .invalidAuthType
      | _ => .error .invalidAuthType

/-! ## RBAC store (`internal/db/database.go`)

The SQLite tables `users`, `roles`, `permissions`, `user_roles` and
`role_permissions` are modelled as lists of rows.  Surrogate row ids and
`created_at`/`assigned_at` timestamp columns that no modelled query reads
are omitted; `AUTOINCREMENT` ids of `roles`/`permissions` (which the join
queries do read) are modelled with explicit `next…Id` counters.  The
`users` list holds the user ids in creation order (ids are assigned by
`AUTOINCREMENT`, so a plain `SELECT id FROM users` scan returns them in
this order). -/

/-- A row of the `roles` table. -/
structure Role where
  id : Int
  name : String
  description : String
deriving DecidableEq, Repr

/-- A row of the `permissions` table. -/
structure Permission where
  id : Int
  name : String
  resource : String
  action : String
  description : String
deriving DecidableEq, Repr

/-- A row of the `user_roles` table (`assigned_by` is nullable). -/
structure UserRole where
  userId : Int
  roleId : Int
  assignedBy : Option Int
deriving DecidableEq, Repr

/-- A row of the `role_permissions` table. -/
structure RolePermission where
  roleId : Int
  permissionId : Int
deriving DecidableEq, Repr

/-- The relational state the RBAC queries touch. -/
structure Store where
  users : List Int
  roles : List Role
  perms : List Permission
  userRoles : List UserRole
  rolePerms : List RolePermission
  nextRoleId : Int
  nextPermId : Int
deriving DecidableEq, Repr

/-- Schema integrity of a `Store`: the `UNIQUE` and `PRIMARY KEY`
constraints of `createTables` plus the declared foreign keys. -/
def Store.WF (s : Store) : Prop :=
  s.users.Nodup ∧
  (s.roles.map Role.id).Nodup ∧
  (s.roles.map Role.name).Nodup ∧
  (s.perms.map Permission.id).Nodup ∧
  (s.perms.map Permission.name).Nodup ∧
  (s.userRoles.map (fun ur => (ur.userId, ur.roleId))).Nodup ∧
  (s.rolePerms.map (fun rp => (rp.roleId, rp.permissionId))).Nodup ∧
  (∀ ur ∈ s.userRoles, ur.userId ∈ s.users ∧ ∃ r ∈ s.roles, r.id = ur.roleId) ∧
  (∀ rp ∈ s.rolePerms,
    (∃ r ∈ s.roles, r.id = rp.roleId) ∧ ∃ p ∈ s.perms, p.id = rp.permissionId)

instance (s : Store) : Decidable s.WF := by
  unfold Store.WF; infer_instance

/-- `getRoleIDByName`: `SELECT id FROM roles WHERE name = ?` (`sql.ErrNoRows`
becomes `none`). -/
def getRoleIDByName (s : Store) (name : String) : Option Int :=
  (s.roles.find? (fun r => r.name == name)).map Role.id

/-- `getPermissionIDByName`. -/
def getPermissionIDByName (s : Store) (name : String) : Option Int :=
  (s.perms.find? (fun p => p.name == name)).map Permission.id

/-- `INSERT OR IGNORE INTO roles (name, description)`: skip when the unique
`name` is already present, otherwise append a row with a fresh id. -/
def insertRoleIfAbsent (s : Store) (name description : String) : Store :=
  if s.roles.any (fun r => r.name == name) then s
  else { s with
          roles := s.roles ++ [⟨s.nextRoleId, name, description⟩],
          nextRoleId := s.nextRoleId + 1 }

/-- `INSERT OR IGNORE INTO permissions (name, resource, action, description)`. -/
def insertPermIfAbsent (s : Store) (name resource action description : String) :
    Store :=
  if s.perms.any (fun p => p.name == name) then s
  else { s with
          perms := s.perms ++ [⟨s.nextPermId, name, resource, action, description⟩],
          nextPermId := s.nextPermId + 1 }

/-- `INSERT OR IGNORE INTO role_permissions (role_id, permission_id)`. -/
def insertRolePermIfAbsent (s : Store) (roleId permId : Int) : Store :=
  if s.rolePerms.any (fun rp => rp.roleId == roleId && rp.permissionId == permId)
  then s
  else { s with rolePerms := s.rolePerms ++ [⟨roleId, permId⟩] }

/-- `GetUserRoles`: `roles INNER JOIN user_roles ON roles.id = user_roles.role_id
WHERE user_roles.user_id = ?`. -/
def getUserRoles (s : Store) (userID : Int) : List Role :=
  (s.userRoles.filter (fun ur => ur.userId == userID)).filterMap
    (fun ur => s.roles.find? (fun r => r.id == ur.roleId))

/-- `HasPermission`: the `user_roles ⋈ role_permissions ⋈ permissions` count
query, returned as `count > 0`. -/
def hasPermission (s : Store) (userID : Int) (permissionName : String) : Bool :=
  s.userRoles.any (fun ur => ur.userId == userID &&
    s.rolePerms.any (fun rp => rp.roleId == ur.roleId &&
      s.perms.any (fun p => p.id == rp.permissionId && p.name == permissionName)))

/-- The `AdminHandler.hasPermission` wrapper: a `nil` user (absent context
identity) is an immediate `false`, otherwise delegate to `HasPermission`
with the user's id. -/
def handlerHasPermission (s : Store) (user : Option Int) (permissionName : String) :
    Bool :=
  match user with
  | none => false
  | some uid => hasPermission s uid permissionName

/-- `AssignRole`: `INSERT OR REPLACE INTO user_roles (user_id, role_id,
assigned_by)` — any row with the same unique `(user_id, role_id)` pair is
deleted and the fresh row inserted. -/
def assignRole (s : Store) (userID roleID : Int) (assignedBy : Option Int) :
    Store :=
  { s with userRoles :=
      (s.userRoles.filter
        (fun ur => ! (ur.userId == userID && ur.roleId == roleID))) ++
        [⟨userID, roleID, assignedBy⟩] }

/-- `RemoveRole`: `DELETE FROM user_roles WHERE user_id = ? AND role_id = ?`. -/
def removeRole (s : Store) (userID roleID : Int) : Store :=
  { s with userRoles :=
      s.userRoles.filter (fun ur => ! (ur.userId == userID && ur.roleId == roleID)) }

/-- The two default roles of `initializeRBAC`. -/
def defaultRoles : List (String × String) :=
  [("admin", "System administrator with full access"),
   ("user", "Regular user with catalog access")]

/-- The fixed permission catalog of `initializeRBAC`:
(name, resource, action, description). -/
def defaultPermissions : List (String × String × String × String) :=
  [("upload_pdf", "pdf", "create", "Upload PDF files"),
   ("view_pdf", "pdf", "read", "View PDF files"),
   ("edit_pdf", "pdf", "update", "Edit PDF metadata"),
   ("delete_pdf", "pdf", "delete", "Delete PDF files"),
   ("manage_users", "user", "manage", "Manage user accounts"),
   ("manage_roles", "role", "manage", "Manage user roles")]

/-- The `rolePermissions` attachment plan: `admin` gets the full catalog. -/
def adminPermNames : List String :=
  ["upload_pdf", "view_pdf", "edit_pdf", "delete_pdf", "manage_users",
   "manage_roles"]

/-- The `rolePermissions` attachment plan: `user` gets `view_pdf` only. -/
def userPermNames : List String := ["view_pdf"]

/-- Inner loop of the attachment phase: look each permission name up in the
current store and `INSERT OR IGNORE` the `(role, permission)` pair. -/
def attachPermsAux (roleId : Int) : List String → Store → Option Store
  | [], s => some s
  | pn :: rest, s =>
    match getPermissionIDByName s pn with
    | none => none
    | some pid => attachPermsAux roleId rest (insertRolePermIfAbsent s roleId pid)

/-- One iteration of the `rolePermissions` attachment loop: resolve the role
id once, then attach every listed permission. -/
def attachPerms (s : Store) (roleName : String) (permNames : List String) :
    Option Store :=
  match getRoleIDByName s roleName with
  | none => none
  | some roleId => attachPermsAux roleId permNames s

/-- The `roles` loop of `initializeRBAC`. -/
def insertDefaultRoles (s : Store) : Store :=
  defaultRoles.foldl (fun st rd => insertRoleIfAbsent st rd.1 rd.2) s

/-- The `permissions` loop of `initializeRBAC`. -/
def insertDefaultPerms (s : Store) : Store :=
  defaultPermissions.foldl
    (fun st pd => insertPermIfAbsent st pd.1 pd.2.1 pd.2.2.1 pd.2.2.2) s

/-- `initializeRBAC`: create the default roles and permissions
(skip-if-exists), then attach the permission sets to both roles.  The Go
source iterates the `rolePermissions` map in unspecified order; the model
fixes the order `admin` then `user` (the attachments are independent
`INSERT OR IGNORE`s on disjoint pairs, so only row order could differ). -/
def initializeRBAC (s : Store) : Option Store :=
  match attachPerms (insertDefaultPerms (insertDefaultRoles s)) "admin"
      adminPermNames with
  | none => none
  | some s3 => attachPerms s3 "user" userPermNames

/-- The `assignDefaultRoles` per-user loop: assign the `user` role to every
user whose resolved role list is empty (the check re-queries the store as
mutated so far, exactly as the Go loop re-queries the database). -/
def assignLoop (userRoleId : Int) : List Int → Store → Store
  | [], s => s
  | u :: rest, s =>
    assignLoop userRoleId rest
      (if (getUserRoles s u).isEmpty then assignRole s u userRoleId none else s)

/-- `assignDefaultRoles`: snapshot the user ids, resolve the `user` and
`admin` role ids, give the `user` role to every roleless user, then — when
no `user_roles` row carries the admin role id and at least one user exists —
promote the first user of the snapshot to `admin`. -/
def assignDefaultRoles (s : Store) : Option Store :=
  match getRoleIDByName s "user", getRoleIDByName s "admin" with
  | some userRoleId, some adminRoleId =>
    let s1 := assignLoop userRoleId s.users s
    match s.users with
    | [] => some s1
    | u0 :: _ =>
      if (s1.userRoles.filter (fun ur => ur.roleId == adminRoleId)).length = 0
      then some (assignRole s1 u0 adminRoleId none)
      else some s1
  | _, _ => none

/-- The RBAC part of `createTables`: `initializeRBAC` followed by
`assignDefaultRoles` (the bootstrap pass). -/
def bootstrap (s : Store) : Option Store :=
  match initializeRBAC s with
  | none => none
  | some s1 => assignDefaultRoles s1

/-- `true` when the user holds a role of the given name: some `user_roles`
row links the user to the id that the role name resolves to. -/
def holdsRole (s : Store) (roleName : String) (u : Int) : Bool :=
  match getRoleIDByName s roleName with
  | none => false
  | some rid => s.userRoles.any (fun ur => ur.userId == u && ur.roleId == rid)

/-- The specification-side formulation of the permission check, for the
refinement claim about `HasPermission`: there exists at least one role
assigned to the user whose permission set contains a permission with the
given name.  (The code joins `user_roles` to `role_permissions` directly;
this version goes through the `roles` table as the spec's words do.) -/
def specHasPermission (s : Store) (userID : Int) (pname : String) : Prop :=
  ∃ r ∈ s.roles,
    (∃ ur ∈ s.userRoles, ur.userId = userID ∧ ur.roleId = r.id) ∧
    ∃ p ∈ s.perms, p.name = pname ∧
      ∃ rp ∈ s.rolePerms, rp.roleId = r.id ∧ rp.permissionId = p.id

/-- A small wellformed store used to instantiate the RBAC theorems: two
users, the two baseline roles, `view_pdf` attached to `user`, and user 1
holding the `user` role. -/
def exStoreC2 : Store :=
  ⟨[1, 2],
   [⟨1, "admin", "System administrator with full access"⟩,
    ⟨2, "user", "Regular user with catalog access"⟩],
   [⟨2, "view_pdf", "pdf", "read", "View PDF files"⟩],
   [⟨1, 2, none⟩],
   [⟨2, 2⟩],
   3, 3⟩

/-- The post-state `initializeRBAC` establishes: both default roles exist,
the whole permission catalog exists, and every planned role-permission
attachment is present for the ids the names currently resolve to. -/
def rbacReady (s : Store) : Prop :=
  (∃ r ∈ s.roles, r.name = "admin") ∧
  (∃ r ∈ s.roles, r.name = "user") ∧
  (∀ pd ∈ defaultPermissions, ∃ p ∈ s.perms, p.name = pd.1) ∧
  (∀ pn ∈ adminPermNames, ∃ aid pid, getRoleIDByName s "admin" = some aid ∧
      getPermissionIDByName s pn = some pid ∧
      (⟨aid, pid⟩ : RolePermission) ∈ s.rolePerms) ∧
  (∀ pn ∈ userPermNames, ∃ rid pid, getRoleIDByName s "user" = some rid ∧
      getPermissionIDByName s pn = some pid ∧
      (⟨rid, pid⟩ : RolePermission) ∈ s.rolePerms)

/-- A store with a single user and nothing else, used to instantiate the
bootstrap theorems. -/
def exStoreOneUser : Store := ⟨[1], [], [], [], [], 1, 1⟩

/-- The result of `bootstrap exStoreOneUser`: default roles and permission
catalog created, the full catalog attached to `admin` and `view_pdf` to
`user`, and user 1 holding both `user` and `admin`. -/
def exStoreOneUserB : Store :=
  ⟨[1],
   [⟨1, "admin", "System administrator with full access"⟩,
    ⟨2, "user", "Regular user with catalog access"⟩],
   [⟨1, "upload_pdf", "pdf", "create", "Upload PDF files"⟩,
    ⟨2, "view_pdf", "pdf", "read", "View PDF files"⟩,
    ⟨3, "edit_pdf", "pdf", "update", "Edit PDF metadata"⟩,
    ⟨4, "delete_pdf", "pdf", "delete", "Delete PDF files"⟩,
    ⟨5, "manage_users", "user", "manage", "Manage user accounts"⟩,
    ⟨6, "manage_roles", "role", "manage", "Manage user roles"⟩],
   [⟨1, 2, none⟩, ⟨1, 1, none⟩],
   [⟨1, 1⟩, ⟨1, 2⟩, ⟨1, 3⟩, ⟨1, 4⟩, ⟨1, 5⟩, ⟨1, 6⟩, ⟨2, 2⟩],
   3, 7⟩

/-- A store with two users and the two baseline roles already present (no
assignments yet), used to instantiate the admin-promotion theorem. -/
def exStoreC5 : Store :=
  ⟨[1, 2],
   [⟨1, "admin", "System administrator with full access"⟩,
    ⟨2, "user", "Regular user with catalog access"⟩],
   [], [], [], 3, 1⟩

/-- `assignDefaultRoles exStoreC5`: both users get `user`, and user 1 — the
earliest-created — is promoted to `admin`. -/
def exStoreC5B : Store :=
  ⟨[1, 2],
   [⟨1, "admin", "System administrator with full access"⟩,
    ⟨2, "user", "Regular user with catalog access"⟩],
   [], [⟨1, 2, none⟩, ⟨2, 2, none⟩, ⟨1, 1, none⟩], [], 3, 1⟩

/-! ## Session manager lemmas -/

theorem lookup_insert_self (sm : SessionManager) (tok : String) (s : Session) :
    (sm.insert tok s).lookup tok = some s := by
  simp [SessionManager.insert, SessionManager.lookup, SessionManager.erase,
    List.find?]

theorem lookup_erase (sm : SessionManager) (tok t' : String) :
    (sm.erase tok).lookup t' = if t' = tok then none else sm.lookup t' := by
  unfold SessionManager.erase SessionManager.lookup
  by_cases h : t' = tok
  · subst h
    rw [if_pos rfl]
    have hnone : ((sm.sessions.filter fun e => e.1 != t').find?
        fun e => e.1 == t') = none := by
      rw [List.find?_eq_none]
      intro x hx
      have hne := (List.mem_filter.mp hx).2
      simp only [bne_iff_ne, ne_eq] at hne
      simp [hne]
    rw [hnone]
    rfl
  · rw [if_neg h]
    show Option.map Prod.snd _ = Option.map Prod.snd _
    congr 1
    induction sm.sessions with
    | nil => rfl
    | cons hd tl ih =>
      by_cases hk : hd.1 = tok
      · rw [List.filter_cons_of_neg (by simp [hk]), ih,
          List.find?_cons_of_neg tl (by simp [hk]; exact fun hc => h hc.symm)]
      · rw [List.filter_cons_of_pos (by simp [hk])]
        by_cases hm : hd.1 = t'
        · rw [List.find?_cons_of_pos _ (by simp [hm]),
            List.find?_cons_of_pos tl (by simp [hm])]
        · rw [List.find?_cons_of_neg _ (by simp [hm]),
            List.find?_cons_of_neg tl (by simp [hm]), ih]

/-- Helper for the cleanup sweep: on a registry with unique keys (the Go map
invariant), looking a token up after the sweep filters exactly the expired
binding. -/
theorem lookup_cleanup (sm : SessionManager) (now : Int) (tok : String)
    (hnd : (sm.sessions.map Prod.fst).Nodup) :
    (cleanupExpiredSessions sm now).lookup tok
      = (sm.lookup tok).bind
          (fun sess => if now > sess.expiresAt then none else some sess) := by
  obtain ⟨l⟩ := sm
  unfold cleanupExpiredSessions
  induction l with
  | nil => rfl
  | cons hd tl ih =>
    simp only [List.map_cons, List.nodup_cons] at hnd
    obtain ⟨hk, hnd'⟩ := hnd
    by_cases htok : hd.1 = tok
    · have hlk : SessionManager.lookup ⟨hd :: tl⟩ tok = some hd.2 := by
        unfold SessionManager.lookup
        rw [List.find?_cons_of_pos tl (by simp [htok])]
        rfl
      by_cases hexp : now > hd.2.expiresAt
      · rw [List.filter_cons_of_neg (by simp [hexp]), hlk]
        have hnone : SessionManager.lookup
            ⟨tl.filter (fun e => ! decide (now > e.2.expiresAt))⟩ tok = none := by
          unfold SessionManager.lookup
          have : ((tl.filter (fun e => ! decide (now > e.2.expiresAt))).find?
              fun e => e.1 == tok) = none := by
            rw [List.find?_eq_none]
            intro x hx
            intro hc
            exact hk (htok ▸ (beq_iff_eq.mp hc ▸
              List.mem_map_of_mem Prod.fst (List.mem_filter.mp hx).1))
          rw [this]
          rfl
        rw [hnone]
        simp [hexp]
      · rw [List.filter_cons_of_pos (by simp [hexp]), hlk]
        have : SessionManager.lookup
            ⟨hd :: tl.filter (fun e => ! decide (now > e.2.expiresAt))⟩ tok
            = some hd.2 := by
          unfold SessionManager.lookup
          rw [List.find?_cons_of_pos _ (by simp [htok])]
          rfl
        rw [this]
        simp [hexp]
    · have hlk : SessionManager.lookup ⟨hd :: tl⟩ tok
          = SessionManager.lookup ⟨tl⟩ tok := by
        unfold SessionManager.lookup
        rw [List.find?_cons_of_neg tl (by simp [htok])]
      by_cases hexp : now > hd.2.expiresAt
      · rw [List.filter_cons_of_neg (by simp [hexp]), hlk]
        exact ih hnd'
      · rw [List.filter_cons_of_pos (by simp [hexp]), hlk]
        rw [← ih hnd']
        unfold SessionManager.lookup
        rw [List.find?_cons_of_neg _ (by simp [htok])]

/-- `ValidateSession` on a token bound in the registry reduces to the expiry
test. -/
theorem validateSession_lookup_some (sm : SessionManager) (tok : String)
    (now : Int) (sess : Session) (h : sm.lookup tok = some sess) :
    validateSession sm tok now =
      if now > sess.expiresAt then (sm.erase tok, .error .invalidToken)
      else (sm, .ok sess) := by
  unfold validateSession
  rw [h]

/-- `ValidateSession` on a token absent from the registry. -/
theorem validateSession_lookup_none (sm : SessionManager) (tok : String)
    (now : Int) (h : sm.lookup tok = none) :
    validateSession sm tok now = (sm, .error .invalidToken) := by
  unfold validateSession
  rw [h]

/-! ## Claim theorems: session lifecycle -/

/-- C1 (amended): a session issued by `CreateSession` at time `t` validates
at time `now` — returning the stored session — iff `now ≤ t + 24h`; strictly
past the expiry it fails with `InvalidToken`.  In particular, at exactly the
boundary instant `now = t + 24h` the session is still accepted (the code
expires only on `time.Now().After(expiresAt)`, a strict comparison). -/
theorem validateSession_of_createSession_ok_iff (sm : SessionManager)
    (tok : String) (uid : Int) (uname : String) (t now : Int) :
    ((validateSession (createSession sm tok uid uname t) tok now).2
        = .ok ⟨uid, uname, t + sessionTTL⟩ ↔ now ≤ t + sessionTTL) ∧
    (now > t + sessionTTL →
      (validateSession (createSession sm tok uid uname t) tok now).2
        = .error .invalidToken) := by
  have hlook : (createSession sm tok uid uname t).lookup tok
      = some ⟨uid, uname, t + sessionTTL⟩ :=
    lookup_insert_self sm tok _
  have hv := validateSession_lookup_some _ tok now _ hlook
  by_cases h : now > t + sessionTTL
  · rw [hv, if_pos h]
    refine ⟨⟨fun hc => ?_, fun hle => absurd h (not_lt.mpr hle)⟩, fun _ => rfl⟩
    simp at hc
  · rw [hv, if_neg h]
    exact ⟨⟨fun _ => not_lt.mp h, fun _ => rfl⟩, fun hc => absurd hc h⟩

/-- C1, counterexample to the claim as stated: at exactly the boundary
instant (validation time equal to the expiry timestamp) `ValidateSession`
succeeds and returns the session; it does not fail with `InvalidToken`. -/
theorem validateSession_boundary_not_expired :
    (validateSession (createSession newSessionManager "tok" 1 "alice" 0) "tok"
        sessionTTL).2 = .ok ⟨1, "alice", sessionTTL⟩ ∧
    ¬ (validateSession (createSession newSessionManager "tok" 1 "alice" 0) "tok"
        sessionTTL).2 = .error .invalidToken := by
  refine ⟨by decide, by decide⟩

/-- Witness for the amended C1 theorem at a concrete input. -/
theorem validateSession_of_createSession_ok_iff_witness :
    ((validateSession (createSession newSessionManager "tok" 7 "bob" 100) "tok"
        (100 + sessionTTL + 1)).2 = .ok ⟨7, "bob", 100 + sessionTTL⟩ ↔
      100 + sessionTTL + 1 ≤ 100 + sessionTTL) ∧
    (validateSession (createSession newSessionManager "tok" 7 "bob" 100) "tok"
        (100 + sessionTTL + 1)).2 = .error .invalidToken :=
  ⟨(validateSession_of_createSession_ok_iff newSessionManager "tok" 7 "bob" 100
      (100 + sessionTTL + 1)).1,
   (validateSession_of_createSession_ok_iff newSessionManager "tok" 7 "bob" 100
      (100 + sessionTTL + 1)).2 (by decide)⟩

/-- C3: a token absent from the registry (in particular one never issued by
`CreateSession`) makes `ValidateSession` fail with `InvalidToken` and leave
the registry untouched; a present-but-expired token makes it fail with
`InvalidToken`, evict exactly that entry, and leave every other token's
binding unchanged. -/
theorem validateSession_error_paths (sm : SessionManager) (tok t' : String)
    (now : Int) (sess : Session) :
    (sm.lookup tok = none →
      validateSession sm tok now = (sm, .error .invalidToken)) ∧
    (sm.lookup tok = some sess → now > sess.expiresAt →
      (validateSession sm tok now).2 = .error .invalidToken ∧
      (validateSession sm tok now).1.lookup tok = none ∧
      (t' ≠ tok →
        (validateSession sm tok now).1.lookup t' = sm.lookup t')) := by
  constructor
  · intro hnone
    exact validateSession_lookup_none sm tok now hnone
  · intro hsome hexp
    have hv := validateSession_lookup_some sm tok now sess hsome
    rw [hv, if_pos hexp]
    refine ⟨rfl, ?_, fun hne => ?_⟩
    · show (sm.erase tok).lookup tok = none
      rw [lookup_erase, if_pos rfl]
    · show (sm.erase tok).lookup t' = sm.lookup t'
      rw [lookup_erase, if_neg hne]

/-- Witness for C3: an expired entry (and an unrelated live one) at sweep
time 10. -/
theorem validateSession_error_paths_witness :
    (validateSession ⟨[("a", ⟨1, "u", 5⟩), ("b", ⟨2, "v", 50⟩)]⟩ "a" 10).2
        = .error .invalidToken ∧
    (validateSession ⟨[("a", ⟨1, "u", 5⟩), ("b", ⟨2, "v", 50⟩)]⟩ "a" 10).1.lookup
        "a" = none ∧
    (validateSession ⟨[("a", ⟨1, "u", 5⟩), ("b", ⟨2, "v", 50⟩)]⟩ "a" 10).1.lookup
        "b" = SessionManager.lookup ⟨[("a", ⟨1, "u", 5⟩), ("b", ⟨2, "v", 50⟩)]⟩
        "b" ∧
    validateSession ⟨[("a", ⟨1, "u", 5⟩), ("b", ⟨2, "v", 50⟩)]⟩ "c" 10
        = (⟨[("a", ⟨1, "u", 5⟩), ("b", ⟨2, "v", 50⟩)]⟩, .error .invalidToken) := by
  have h := validateSession_error_paths ⟨[("a", ⟨1, "u", 5⟩), ("b", ⟨2, "v", 50⟩)]⟩
    "a" "b" 10 ⟨1, "u", 5⟩
  have h2 := h.2 (by decide) (by decide)
  have h3 := (validateSession_error_paths
    ⟨[("a", ⟨1, "u", 5⟩), ("b", ⟨2, "v", 50⟩)]⟩ "c" "b" 10 ⟨1, "u", 5⟩).1
    (by decide)
  exact ⟨h2.1, h2.2.1, h2.2.2 (by decide), h3⟩

/-- C8: on a registry with unique keys (the Go map invariant), the hourly
sweep `CleanupExpiredSessions` removes exactly the entries already expired
at sweep time: whatever survives was present and unexpired, every expired
entry is gone, and every unexpired entry is still bound to the same
session. -/
theorem cleanupExpiredSessions_exact (sm : SessionManager) (now : Int)
    (tok : String) (sess : Session)
    (hnd : (sm.sessions.map Prod.fst).Nodup) :
    ((cleanupExpiredSessions sm now).lookup tok = some sess →
      sm.lookup tok = some sess ∧ ¬ now > sess.expiresAt) ∧
    (sm.lookup tok = some sess → now > sess.expiresAt →
      (cleanupExpiredSessions sm now).lookup tok = none) ∧
    (sm.lookup tok = some sess → ¬ now > sess.expiresAt →
      (cleanupExpiredSessions sm now).lookup tok = some sess) := by
  have hc := lookup_cleanup sm now tok hnd
  refine ⟨?_, ?_, ?_⟩
  · intro hsur
    rw [hc] at hsur
    cases hlk : sm.lookup tok with
    | none => rw [hlk] at hsur; simp at hsur
    | some s0 =>
      rw [hlk] at hsur
      simp only [Option.some_bind] at hsur
      by_cases hexp : now > s0.expiresAt
      · rw [if_pos hexp] at hsur; cases hsur
      · rw [if_neg hexp] at hsur
        injection hsur with hs
        subst hs
        exact ⟨rfl, hexp⟩
  · intro hlk hexp
    rw [hc, hlk]
    simp [hexp]
  · intro hlk hexp
    rw [hc, hlk]
    simp [hexp]

/-- Witness for C8: one expired and one live session at sweep time 10. -/
theorem cleanupExpiredSessions_exact_witness :
    (cleanupExpiredSessions ⟨[("a", ⟨1, "u", 5⟩), ("b", ⟨2, "v", 50⟩)]⟩
        10).lookup "a" = none ∧
    (cleanupExpiredSessions ⟨[("a", ⟨1, "u", 5⟩), ("b", ⟨2, "v", 50⟩)]⟩
        10).lookup "b" = some ⟨2, "v", 50⟩ := by
  have ha := cleanupExpiredSessions_exact
    ⟨[("a", ⟨1, "u", 5⟩), ("b", ⟨2, "v", 50⟩)]⟩ 10 "a" ⟨1, "u", 5⟩ (by decide)
  have hb := cleanupExpiredSessions_exact
    ⟨[("a", ⟨1, "u", 5⟩), ("b", ⟨2, "v", 50⟩)]⟩ 10 "b" ⟨2, "v", 50⟩ (by decide)
  exact ⟨ha.2.1 (by decide) (by decide), hb.2.2 (by decide) (by decide)⟩

/-! ## Claim theorems: token extraction -/

/-- C7: `GetSessionToken` reads the session cookie first (when present, its
value is returned and the `Authorization` header is never consulted); with
no cookie, an absent (empty) header yields `NoAuthHeader`, a header that is
not exactly two space-separated parts starting with `Bearer` yields
`InvalidAuthType`, and a well-formed `Bearer <tok>` header yields `tok`. -/
theorem getSessionToken_cases (r : Request) (v tok : String) :
    (r.sessionCookie = some v → getSessionToken r = .ok v) ∧
    (r.sessionCookie = none → r.authHeader = "" →
      getSessionToken r = .error .noAuthHeader) ∧
    (r.sessionCookie = none → r.authHeader ≠ "" →
      ¬ ((splitSpaces r.authHeader).length = 2 ∧
          (splitSpaces r.authHeader).head? = some "Bearer") →
      getSessionToken r = .error .invalidAuthType) ∧
    (r.sessionCookie = none → r.authHeader ≠ "" →
      splitSpaces r.authHeader = ["Bearer", tok] →
      getSessionToken r = .ok tok) := by
  refine ⟨fun hc => ?_, fun hc he => ?_, fun hc he hbad => ?_,
    fun hc he hgood => ?_⟩
  · unfold getSessionToken
    rw [hc]
  · unfold getSessionToken
    rw [hc]
    simp [he]
  · unfold getSessionToken
    rw [hc]
    simp only [if_neg he]
    cases hsp : splitSpaces r.authHeader with
    | nil => rfl
    | cons a l =>
      cases l with
      | nil => rfl
      | cons b l2 =>
        cases l2 with
        | nil =>
          have hnb : a ≠ "Bearer" := by
            intro hab
            exact hbad (by simp [hsp, hab])
          simp [hnb]
        | cons c l3 => rfl
  · unfold getSessionToken
    rw [hc]
    simp [if_neg he, hgood]

/-- Witness for C7, matching the spec scenario: `Authorization: Token abc`
fails with `InvalidAuthType`; `Authorization: Bearer abc` yields `abc`; a
request with a cookie and a header yields the cookie value. -/
theorem getSessionToken_cases_witness :
    getSessionToken ⟨none, "Token abc"⟩ = .error .invalidAuthType ∧
    getSessionToken ⟨none, "Bearer abc"⟩ = .ok "abc" ∧
    getSessionToken ⟨some "cookieTok", "Bearer abc"⟩ = .ok "cookieTok" ∧
    getSessionToken ⟨none, ""⟩ = .error .noAuthHeader := by
  refine ⟨?_, ?_, ?_, ?_⟩
  · exact (getSessionToken_cases ⟨none, "Token abc"⟩ "" "").2.2.1 rfl
      (by decide) (by decide)
  · exact (getSessionToken_cases ⟨none, "Bearer abc"⟩ "" "abc").2.2.2 rfl
      (by decide) (by decide)
  · exact (getSessionToken_cases ⟨some "cookieTok", "Bearer abc"⟩ "cookieTok"
      "").1 rfl
  · exact (getSessionToken_cases ⟨none, ""⟩ "" "").2.1 rfl rfl

/-- C10: whenever the request carries a session cookie — even with an empty
value — `GetSessionToken` returns the cookie value without error and never
consults the `Authorization` header; consequently the `NoAuthHeader` and
`InvalidAuthType` errors only arise for requests with no session cookie. -/
theorem getSessionToken_cookie_priority (r : Request) (v : String)
    (e : AuthError) :
    (r.sessionCookie = some v → getSessionToken r = .ok v) ∧
    (getSessionToken r = .error e → r.sessionCookie = none) := by
  constructor
  · intro hc
    unfold getSessionToken
    rw [hc]
  · intro herr
    cases hc : r.sessionCookie with
    | none => rfl
    | some v0 =>
      unfold getSessionToken at herr
      rw [hc] at herr
      cases herr

/-- Witness for C10: an empty-valued cookie wins over a malformed header. -/
theorem getSessionToken_cookie_priority_witness :
    getSessionToken ⟨some "", "Token abc"⟩ = .ok "" :=
  (getSessionToken_cookie_priority ⟨some "", "Token abc"⟩ ""
    .invalidAuthType).1 rfl

/-! ## Claim theorems: permission resolution -/

/-- C2: on a store satisfying the schema constraints, `HasPermission` is
`true` iff some role assigned to the user has a permission with the given
name in its permission set; a user id with no identity record resolves to
`false`, and the handler wrapper maps a `nil` identity to `false` (no code
path signals an error for a missing identity — storage failures of the SQL
driver are outside the model). -/
theorem hasPermission_iff_spec (s : Store) (u : Int) (pname : String)
    (hwf : s.WF) :
    (hasPermission s u pname = true ↔ specHasPermission s u pname) ∧
    (u ∉ s.users → hasPermission s u pname = false) ∧
    handlerHasPermission s none pname = false := by
  obtain ⟨-, -, -, -, -, -, -, hfkur, -⟩ := hwf
  refine ⟨?_, ?_, rfl⟩
  · unfold hasPermission specHasPermission
    simp only [List.any_eq_true, Bool.and_eq_true, beq_iff_eq]
    constructor
    · rintro ⟨ur, hur, hu, rp, hrp, hrid, p, hp, hpid, hpname⟩
      obtain ⟨-, r, hr, hrid2⟩ := hfkur ur hur
      exact ⟨r, hr, ⟨ur, hur, hu, hrid2.symm⟩, p, hp, hpname, rp, hrp,
        hrid.trans hrid2.symm, hpid.symm⟩
    · rintro ⟨r, hr, ⟨ur, hur, hu, hrole⟩, p, hp, hpname, rp, hrp, hrpr, hrpp⟩
      exact ⟨ur, hur, hu, rp, hrp, hrpr.trans hrole.symm, p, hp, hrpp.symm,
        hpname⟩
  · intro hu
    unfold hasPermission
    rw [List.any_eq_false]
    intro ur hur hc
    rw [Bool.and_eq_true, beq_iff_eq] at hc
    exact hu (hc.1 ▸ (hfkur ur hur).1)

/-- Witness for C2 on `exStoreC2`: user 1 (holding `user`) and the absent
user id 5. -/
theorem hasPermission_iff_spec_witness :
    (hasPermission exStoreC2 1 "view_pdf" = true ↔
      specHasPermission exStoreC2 1 "view_pdf") ∧
    hasPermission exStoreC2 5 "view_pdf" = false ∧
    handlerHasPermission exStoreC2 none "view_pdf" = false :=
  ⟨(hasPermission_iff_spec exStoreC2 1 "view_pdf" (by decide)).1,
   (hasPermission_iff_spec exStoreC2 5 "view_pdf" (by decide)).2.1 (by decide),
   (hasPermission_iff_spec exStoreC2 1 "view_pdf" (by decide)).2.2⟩

/-- C9: re-assigning a `(user, role)` pair the user already holds does not
error (`assignRole` is total: `INSERT OR REPLACE` cannot hit the unique
constraint) and does not duplicate the row — afterwards exactly one
`user_roles` row exists for the pair and its `assigned_by` is the granter of
the latest call. -/
theorem assignRole_upsert (s : Store) (u rid : Int) (g : Option Int)
    (h : ∃ ur ∈ s.userRoles, ur.userId = u ∧ ur.roleId = rid) :
    (assignRole s u rid g).userRoles.filter
        (fun ur => ur.userId == u && ur.roleId == rid) = [⟨u, rid, g⟩] := by
  obtain ⟨-, -⟩ := h
  show ((s.userRoles.filter
      (fun ur : UserRole => ! (ur.userId == u && ur.roleId == rid))) ++
      ([⟨u, rid, g⟩] : List UserRole)).filter
      (fun ur : UserRole => ur.userId == u && ur.roleId == rid)
    = [⟨u, rid, g⟩]
  rw [List.filter_append]
  have h1 : (s.userRoles.filter
      (fun ur => ! (ur.userId == u && ur.roleId == rid))).filter
      (fun ur => ur.userId == u && ur.roleId == rid) = [] := by
    rw [List.filter_eq_nil_iff]
    intro ur hur
    have hn := (List.mem_filter.mp hur).2
    simp only [Bool.not_eq_eq_eq_not, Bool.not_true] at hn
    simp [hn]
  rw [h1]
  simp

/-- Witness for C9: user 1 already holds role 2 in `exStoreC2`; re-assigning
with granter 9 leaves one row with the new granter. -/
theorem assignRole_upsert_witness :
    (assignRole exStoreC2 1 2 (some 9)).userRoles.filter
        (fun ur => ur.userId == 1 && ur.roleId == 2) = [⟨1, 2, some 9⟩] :=
  assignRole_upsert exStoreC2 1 2 (some 9) ⟨⟨1, 2, none⟩, by decide, rfl, rfl⟩

/-! ## Bootstrap lemmas: `assignRole` and the default-role loop -/

theorem assignRole_users (s : Store) (u rid : Int) (g : Option Int) :
    (assignRole s u rid g).users = s.users := rfl

theorem assignRole_roles (s : Store) (u rid : Int) (g : Option Int) :
    (assignRole s u rid g).roles = s.roles := rfl

theorem assignRole_perms (s : Store) (u rid : Int) (g : Option Int) :
    (assignRole s u rid g).perms = s.perms := rfl

theorem assignRole_rolePerms (s : Store) (u rid : Int) (g : Option Int) :
    (assignRole s u rid g).rolePerms = s.rolePerms := rfl

theorem assignRole_userRoles (s : Store) (u rid : Int) (g : Option Int) :
    (assignRole s u rid g).userRoles
      = (s.userRoles.filter
          (fun ur => ! (ur.userId == u && ur.roleId == rid)))
        ++ [⟨u, rid, g⟩] := rfl

/-- Assigning a role to `u` does not change the resolved role list of any
other user. -/
theorem getUserRoles_assignRole_ne (s : Store) (u rid : Int) (g : Option Int)
    (w : Int) (hw : w ≠ u) :
    getUserRoles (assignRole s u rid g) w = getUserRoles s w := by
  unfold getUserRoles
  rw [assignRole_roles, assignRole_userRoles, List.filter_append,
    List.filter_filter]
  have h1 : List.filter (fun ur : UserRole => ur.userId == w)
      ([⟨u, rid, g⟩] : List UserRole) = [] := by
    simp [Ne.symm hw]
  have h2 : (fun ur : UserRole =>
      (ur.userId == w) && ! (ur.userId == u && ur.roleId == rid))
      = (fun ur : UserRole => ur.userId == w) := by
    funext ur
    by_cases hu : ur.userId = w
    · simp [hu, hw]
    · simp [hu]
  rw [h1, h2, List.append_nil]

/-- After assigning a role whose id resolves in the `roles` table, the
user's resolved role list is non-empty. -/
theorem getUserRoles_assignRole_self_ne_nil (s : Store) (u rid : Int)
    (g : Option Int) (hr : ∃ r ∈ s.roles, r.id = rid) :
    getUserRoles (assignRole s u rid g) u ≠ [] := by
  unfold getUserRoles
  rw [assignRole_roles, assignRole_userRoles, List.filter_append]
  have h1 : List.filter (fun ur : UserRole => ur.userId == u)
      ([⟨u, rid, g⟩] : List UserRole) = [⟨u, rid, g⟩] := by simp
  rw [h1, List.filterMap_append]
  intro hnil
  obtain ⟨-, h2⟩ := List.append_eq_nil.mp hnil
  rw [List.filterMap_eq_nil_iff] at h2
  have h3 := h2 ⟨u, rid, g⟩ (by simp)
  rw [List.find?_eq_none] at h3
  obtain ⟨r, hrm, hrid⟩ := hr
  exact h3 r hrm (by simp [hrid])

/-- The default-role loop changes only the `user_roles` table. -/
theorem assignLoop_frame (uid : Int) (l : List Int) (s : Store) :
    (assignLoop uid l s).users = s.users ∧
    (assignLoop uid l s).roles = s.roles ∧
    (assignLoop uid l s).perms = s.perms ∧
    (assignLoop uid l s).rolePerms = s.rolePerms := by
  induction l generalizing s with
  | nil => exact ⟨rfl, rfl, rfl, rfl⟩
  | cons u rest ih =>
    unfold assignLoop
    by_cases h : (getUserRoles s u).isEmpty
    · rw [if_pos h]
      obtain ⟨h1, h2, h3, h4⟩ := ih (assignRole s u uid none)
      rw [h1, h2, h3, h4]
      exact ⟨assignRole_users s u uid none, assignRole_roles s u uid none,
        assignRole_perms s u uid none, assignRole_rolePerms s u uid none⟩
    · rw [if_neg h]
      exact ih s

/-- The loop never empties a user's resolved role list. -/
theorem assignLoop_getUserRoles_pres (uid : Int) (l : List Int) (s : Store)
    (w : Int) (hr : ∃ r ∈ s.roles, r.id = uid)
    (hw : getUserRoles s w ≠ []) :
    getUserRoles (assignLoop uid l s) w ≠ [] := by
  induction l generalizing s with
  | nil => exact hw
  | cons u rest ih =>
    unfold assignLoop
    by_cases h : (getUserRoles s u).isEmpty
    · rw [if_pos h]
      refine ih (assignRole s u uid none) ?_ ?_
      · rw [assignRole_roles]; exact hr
      · by_cases hwu : w = u
        · subst hwu
          exact getUserRoles_assignRole_self_ne_nil s w uid none hr
        · rw [getUserRoles_assignRole_ne s u uid none w hwu]; exact hw
    · rw [if_neg h]
      exact ih s hr hw

/-- After the loop, every visited user's resolved role list is non-empty
(provided the assigned role id resolves). -/
theorem assignLoop_covers (uid : Int) (l : List Int) (s : Store)
    (hr : ∃ r ∈ s.roles, r.id = uid) :
    ∀ w ∈ l, getUserRoles (assignLoop uid l s) w ≠ [] := by
  induction l generalizing s with
  | nil => intro w hw; cases hw
  | cons u rest ih =>
    intro w hw
    unfold assignLoop
    by_cases h : (getUserRoles s u).isEmpty
    · rw [if_pos h]
      have hr' : ∃ r ∈ (assignRole s u uid none).roles, r.id = uid := by
        rw [assignRole_roles]; exact hr
      rcases List.mem_cons.mp hw with hwu | hwrest
      · subst hwu
        exact assignLoop_getUserRoles_pres uid rest _ w hr'
          (getUserRoles_assignRole_self_ne_nil s w uid none hr)
      · exact ih _ hr' w hwrest
    · rw [if_neg h]
      rcases List.mem_cons.mp hw with hwu | hwrest
      · subst hwu
        exact assignLoop_getUserRoles_pres uid rest s w hr
          (fun hnil => h (by rw [hnil]; rfl))
      · exact ih s hr w hwrest

/-- Assigning role `rid` leaves the rows of any other role id untouched. -/
theorem assignRole_filter_other_role (s : Store) (u rid aid : Int)
    (g : Option Int) (hne : rid ≠ aid) :
    (assignRole s u rid g).userRoles.filter (fun ur => ur.roleId == aid)
      = s.userRoles.filter (fun ur => ur.roleId == aid) := by
  rw [assignRole_userRoles, List.filter_append, List.filter_filter]
  have h1 : List.filter (fun ur : UserRole => ur.roleId == aid)
      ([⟨u, rid, g⟩] : List UserRole) = [] := by simp [hne]
  have h2 : (fun ur : UserRole =>
      (ur.roleId == aid) && ! (ur.userId == u && ur.roleId == rid))
      = (fun ur : UserRole => ur.roleId == aid) := by
    funext ur
    by_cases hra : ur.roleId = aid
    · simp [hra, Ne.symm hne]
    · simp [hra]
  rw [h1, h2, List.append_nil]

/-- The loop assigns only the `user` role, so the rows of any other role id
are exactly preserved. -/
theorem assignLoop_filter_role (uid aid : Int) (l : List Int) (s : Store)
    (hne : uid ≠ aid) :
    (assignLoop uid l s).userRoles.filter (fun ur => ur.roleId == aid)
      = s.userRoles.filter (fun ur => ur.roleId == aid) := by
  induction l generalizing s with
  | nil => rfl
  | cons u rest ih =>
    unfold assignLoop
    by_cases h : (getUserRoles s u).isEmpty
    · rw [if_pos h, ih, assignRole_filter_other_role s u uid aid none hne]
    · rw [if_neg h, ih]

/-- Every row present after the loop was either present before or is a
system-granted `user`-role row for one of the visited users. -/
theorem assignLoop_mem (uid : Int) (l : List Int) (s : Store) (ur : UserRole)
    (h : ur ∈ (assignLoop uid l s).userRoles) :
    ur ∈ s.userRoles ∨
      (ur.userId ∈ l ∧ ur.roleId = uid ∧ ur.assignedBy = none) := by
  induction l generalizing s with
  | nil => exact Or.inl h
  | cons u rest ih =>
    unfold assignLoop at h
    by_cases hc : (getUserRoles s u).isEmpty
    · rw [if_pos hc] at h
      rcases ih _ h with hmem | hnew
      · rw [assignRole_userRoles] at hmem
        rcases List.mem_append.mp hmem with hl | hr
        · exact Or.inl (List.mem_filter.mp hl).1
        · have hur : ur = ⟨u, uid, none⟩ := by simpa using hr
          subst hur
          exact Or.inr ⟨List.mem_cons_self u rest, rfl, rfl⟩
      · exact Or.inr ⟨List.mem_cons_of_mem u hnew.1, hnew.2.1, hnew.2.2⟩
    · rw [if_neg hc] at h
      rcases ih s h with hmem | hnew
      · exact Or.inl hmem
      · exact Or.inr ⟨List.mem_cons_of_mem u hnew.1, hnew.2.1, hnew.2.2⟩

/-! ## Bootstrap lemmas: `initializeRBAC` -/

theorem getRoleIDByName_spec (s : Store) (nm : String) (i : Int)
    (h : getRoleIDByName s nm = some i) :
    ∃ r ∈ s.roles, r.name = nm ∧ r.id = i := by
  unfold getRoleIDByName at h
  cases hf : s.roles.find? (fun r => r.name == nm) with
  | none => rw [hf] at h; cases h
  | some r =>
    rw [hf] at h
    injection h with h
    exact ⟨r, List.mem_of_find?_eq_some hf,
      by simpa using List.find?_some hf, h⟩

theorem getRoleIDByName_exists_id (s : Store) (nm : String) (i : Int)
    (h : getRoleIDByName s nm = some i) : ∃ r ∈ s.roles, r.id = i := by
  obtain ⟨r, hr, -, hid⟩ := getRoleIDByName_spec s nm i h
  exact ⟨r, hr, hid⟩

theorem getRoleIDByName_of_mem (s : Store) (nm : String)
    (h : ∃ r ∈ s.roles, r.name = nm) : ∃ i, getRoleIDByName s nm = some i := by
  obtain ⟨r, hr, hn⟩ := h
  unfold getRoleIDByName
  cases hf : s.roles.find? (fun r => r.name == nm) with
  | none =>
    rw [List.find?_eq_none] at hf
    exact absurd (by simp [hn]) (hf r hr)
  | some r0 => exact ⟨r0.id, rfl⟩

/-- Distinct role names resolve to distinct ids when role ids are unique. -/
theorem getRoleIDByName_distinct (s : Store)
    (hnd : (s.roles.map Role.id).Nodup) (n1 n2 : String) (i1 i2 : Int)
    (h1 : getRoleIDByName s n1 = some i1) (h2 : getRoleIDByName s n2 = some i2)
    (hne : n1 ≠ n2) : i1 ≠ i2 := by
  obtain ⟨r1, hm1, hname1, hid1⟩ := getRoleIDByName_spec s n1 i1 h1
  obtain ⟨r2, hm2, hname2, hid2⟩ := getRoleIDByName_spec s n2 i2 h2
  intro hcontra
  have hr12 : r1 = r2 :=
    List.inj_on_of_nodup_map hnd hm1 hm2 (by rw [hid1, hid2, hcontra])
  exact hne (hname1 ▸ hname2 ▸ congrArg Role.name hr12)

theorem getRoleIDByName_congr (s s' : Store) (h : s'.roles = s.roles)
    (nm : String) : getRoleIDByName s' nm = getRoleIDByName s nm := by
  unfold getRoleIDByName
  rw [h]

theorem getPermissionIDByName_congr (s s' : Store) (h : s'.perms = s.perms)
    (nm : String) :
    getPermissionIDByName s' nm = getPermissionIDByName s nm := by
  unfold getPermissionIDByName
  rw [h]

theorem getPermissionIDByName_of_mem (s : Store) (nm : String)
    (h : ∃ p ∈ s.perms, p.name = nm) :
    ∃ i, getPermissionIDByName s nm = some i := by
  obtain ⟨p, hp, hn⟩ := h
  unfold getPermissionIDByName
  cases hf : s.perms.find? (fun p => p.name == nm) with
  | none =>
    rw [List.find?_eq_none] at hf
    exact absurd (by simp [hn]) (hf p hp)
  | some p0 => exact ⟨p0.id, rfl⟩

theorem insertRoleIfAbsent_frame (s : Store) (n d : String) :
    (insertRoleIfAbsent s n d).users = s.users ∧
    (insertRoleIfAbsent s n d).perms = s.perms ∧
    (insertRoleIfAbsent s n d).userRoles = s.userRoles ∧
    (insertRoleIfAbsent s n d).rolePerms = s.rolePerms := by
  unfold insertRoleIfAbsent
  by_cases h : s.roles.any (fun r => r.name == n) <;>
    [rw [if_pos h]; rw [if_neg h]] <;> exact ⟨rfl, rfl, rfl, rfl⟩

theorem insertRoleIfAbsent_mem (s : Store) (n d : String) (r : Role)
    (h : r ∈ s.roles) : r ∈ (insertRoleIfAbsent s n d).roles := by
  unfold insertRoleIfAbsent
  by_cases hc : s.roles.any (fun r => r.name == n)
  · rw [if_pos hc]; exact h
  · rw [if_neg hc]; exact List.mem_append_left _ h

theorem insertRoleIfAbsent_name_present (s : Store) (n d : String) :
    ∃ r ∈ (insertRoleIfAbsent s n d).roles, r.name = n := by
  unfold insertRoleIfAbsent
  by_cases hc : s.roles.any (fun r => r.name == n)
  · rw [if_pos hc]
    obtain ⟨r, hr, hn⟩ := List.any_eq_true.mp hc
    exact ⟨r, hr, by simpa using hn⟩
  · rw [if_neg hc]
    exact ⟨⟨s.nextRoleId, n, d⟩, List.mem_append_right _ (by simp), rfl⟩

theorem insertRoleIfAbsent_noop (s : Store) (n d : String)
    (h : ∃ r ∈ s.roles, r.name = n) : insertRoleIfAbsent s n d = s := by
  obtain ⟨r, hr, hn⟩ := h
  unfold insertRoleIfAbsent
  rw [if_pos (List.any_eq_true.mpr ⟨r, hr, by simp [hn]⟩)]

theorem insertPermIfAbsent_frame (s : Store) (n rc a d : String) :
    (insertPermIfAbsent s n rc a d).users = s.users ∧
    (insertPermIfAbsent s n rc a d).roles = s.roles ∧
    (insertPermIfAbsent s n rc a d).userRoles = s.userRoles ∧
    (insertPermIfAbsent s n rc a d).rolePerms = s.rolePerms := by
  unfold insertPermIfAbsent
  by_cases h : s.perms.any (fun p => p.name == n) <;>
    [rw [if_pos h]; rw [if_neg h]] <;> exact ⟨rfl, rfl, rfl, rfl⟩

theorem insertPermIfAbsent_mem (s : Store) (n rc a d : String) (p : Permission)
    (h : p ∈ s.perms) : p ∈ (insertPermIfAbsent s n rc a d).perms := by
  unfold insertPermIfAbsent
  by_cases hc : s.perms.any (fun p => p.name == n)
  · rw [if_pos hc]; exact h
  · rw [if_neg hc]; exact List.mem_append_left _ h

theorem insertPermIfAbsent_name_present (s : Store) (n rc a d : String) :
    ∃ p ∈ (insertPermIfAbsent s n rc a d).perms, p.name = n := by
  unfold insertPermIfAbsent
  by_cases hc : s.perms.any (fun p => p.name == n)
  · rw [if_pos hc]
    obtain ⟨p, hp, hn⟩ := List.any_eq_true.mp hc
    exact ⟨p, hp, by simpa using hn⟩
  · rw [if_neg hc]
    exact ⟨⟨s.nextPermId, n, rc, a, d⟩, List.mem_append_right _ (by simp), rfl⟩

theorem insertPermIfAbsent_noop (s : Store) (n rc a d : String)
    (h : ∃ p ∈ s.perms, p.name = n) : insertPermIfAbsent s n rc a d = s := by
  obtain ⟨p, hp, hn⟩ := h
  unfold insertPermIfAbsent
  rw [if_pos (List.any_eq_true.mpr ⟨p, hp, by simp [hn]⟩)]

theorem insertRolePermIfAbsent_frame (s : Store) (rid pid : Int) :
    (insertRolePermIfAbsent s rid pid).users = s.users ∧
    (insertRolePermIfAbsent s rid pid).roles = s.roles ∧
    (insertRolePermIfAbsent s rid pid).perms = s.perms ∧
    (insertRolePermIfAbsent s rid pid).userRoles = s.userRoles := by
  unfold insertRolePermIfAbsent
  by_cases h : s.rolePerms.any
      (fun rp => rp.roleId == rid && rp.permissionId == pid) <;>
    [rw [if_pos h]; rw [if_neg h]] <;> exact ⟨rfl, rfl, rfl, rfl⟩

theorem insertRolePermIfAbsent_mem_self (s : Store) (rid pid : Int) :
    (⟨rid, pid⟩ : RolePermission) ∈ (insertRolePermIfAbsent s rid pid).rolePerms := by
  unfold insertRolePermIfAbsent
  by_cases hc : s.rolePerms.any
      (fun rp => rp.roleId == rid && rp.permissionId == pid)
  · rw [if_pos hc]
    obtain ⟨rp, hrp, hq⟩ := List.any_eq_true.mp hc
    rw [Bool.and_eq_true, beq_iff_eq, beq_iff_eq] at hq
    have : rp = ⟨rid, pid⟩ := by
      cases rp
      simp only at hq
      rw [hq.1, hq.2]
    exact this ▸ hrp
  · rw [if_neg hc]
    exact List.mem_append_right _ (by simp)

theorem insertRolePermIfAbsent_mono (s : Store) (rid pid : Int)
    (rp : RolePermission) (h : rp ∈ s.rolePerms) :
    rp ∈ (insertRolePermIfAbsent s rid pid).rolePerms := by
  unfold insertRolePermIfAbsent
  by_cases hc : s.rolePerms.any
      (fun rp => rp.roleId == rid && rp.permissionId == pid)
  · rw [if_pos hc]; exact h
  · rw [if_neg hc]; exact List.mem_append_left _ h

theorem insertRolePermIfAbsent_noop (s : Store) (rid pid : Int)
    (h : (⟨rid, pid⟩ : RolePermission) ∈ s.rolePerms) :
    insertRolePermIfAbsent s rid pid = s := by
  unfold insertRolePermIfAbsent
  rw [if_pos (List.any_eq_true.mpr ⟨⟨rid, pid⟩, h, by simp⟩)]

theorem foldRoles_frame (pds : List (String × String)) (s : Store) :
    (pds.foldl (fun st rd => insertRoleIfAbsent st rd.1 rd.2) s).users = s.users ∧
    (pds.foldl (fun st rd => insertRoleIfAbsent st rd.1 rd.2) s).perms = s.perms ∧
    (pds.foldl (fun st rd => insertRoleIfAbsent st rd.1 rd.2) s).userRoles
      = s.userRoles ∧
    (pds.foldl (fun st rd => insertRoleIfAbsent st rd.1 rd.2) s).rolePerms
      = s.rolePerms := by
  induction pds generalizing s with
  | nil => exact ⟨rfl, rfl, rfl, rfl⟩
  | cons hd tl ih =>
    rw [List.foldl_cons]
    obtain ⟨h1, h2, h3, h4⟩ := ih (insertRoleIfAbsent s hd.1 hd.2)
    obtain ⟨g1, g2, g3, g4⟩ := insertRoleIfAbsent_frame s hd.1 hd.2
    exact ⟨h1.trans g1, h2.trans g2, h3.trans g3, h4.trans g4⟩

theorem foldRoles_mem (pds : List (String × String)) (s : Store) (r : Role)
    (h : r ∈ s.roles) :
    r ∈ (pds.foldl (fun st rd => insertRoleIfAbsent st rd.1 rd.2) s).roles := by
  induction pds generalizing s with
  | nil => exact h
  | cons hd tl ih =>
    rw [List.foldl_cons]
    exact ih _ (insertRoleIfAbsent_mem s hd.1 hd.2 r h)

theorem foldRoles_covers (pds : List (String × String)) (s : Store) :
    ∀ nd ∈ pds,
      ∃ r ∈ (pds.foldl (fun st rd => insertRoleIfAbsent st rd.1 rd.2) s).roles,
        r.name = nd.1 := by
  induction pds generalizing s with
  | nil => intro nd hnd; cases hnd
  | cons hd tl ih =>
    intro nd hnd
    rw [List.foldl_cons]
    rcases List.mem_cons.mp hnd with heq | htl
    · subst heq
      obtain ⟨r, hr, hn⟩ := insertRoleIfAbsent_name_present s nd.1 nd.2
      exact ⟨r, foldRoles_mem tl _ r hr, hn⟩
    · exact ih _ nd htl

theorem foldRoles_noop (pds : List (String × String)) (s : Store)
    (h : ∀ nd ∈ pds, ∃ r ∈ s.roles, r.name = nd.1) :
    pds.foldl (fun st rd => insertRoleIfAbsent st rd.1 rd.2) s = s := by
  induction pds with
  | nil => rfl
  | cons hd tl ih =>
    rw [List.foldl_cons, insertRoleIfAbsent_noop s hd.1 hd.2
      (h hd (List.mem_cons_self hd tl))]
    exact ih (fun nd hnd => h nd (List.mem_cons_of_mem hd hnd))

theorem foldPerms_frame (pds : List (String × String × String × String))
    (s : Store) :
    (pds.foldl (fun st pd => insertPermIfAbsent st pd.1 pd.2.1 pd.2.2.1 pd.2.2.2)
        s).users = s.users ∧
    (pds.foldl (fun st pd => insertPermIfAbsent st pd.1 pd.2.1 pd.2.2.1 pd.2.2.2)
        s).roles = s.roles ∧
    (pds.foldl (fun st pd => insertPermIfAbsent st pd.1 pd.2.1 pd.2.2.1 pd.2.2.2)
        s).userRoles = s.userRoles ∧
    (pds.foldl (fun st pd => insertPermIfAbsent st pd.1 pd.2.1 pd.2.2.1 pd.2.2.2)
        s).rolePerms = s.rolePerms := by
  induction pds generalizing s with
  | nil => exact ⟨rfl, rfl, rfl, rfl⟩
  | cons hd tl ih =>
    rw [List.foldl_cons]
    obtain ⟨h1, h2, h3, h4⟩ := ih (insertPermIfAbsent s hd.1 hd.2.1 hd.2.2.1 hd.2.2.2)
    obtain ⟨g1, g2, g3, g4⟩ := insertPermIfAbsent_frame s hd.1 hd.2.1 hd.2.2.1 hd.2.2.2
    exact ⟨h1.trans g1, h2.trans g2, h3.trans g3, h4.trans g4⟩

theorem foldPerms_mem (pds : List (String × String × String × String))
    (s : Store) (p : Permission) (h : p ∈ s.perms) :
    p ∈ (pds.foldl
        (fun st pd => insertPermIfAbsent st pd.1 pd.2.1 pd.2.2.1 pd.2.2.2)
        s).perms := by
  induction pds generalizing s with
  | nil => exact h
  | cons hd tl ih =>
    rw [List.foldl_cons]
    exact ih _ (insertPermIfAbsent_mem s hd.1 hd.2.1 hd.2.2.1 hd.2.2.2 p h)

theorem foldPerms_covers (pds : List (String × String × String × String))
    (s : Store) :
    ∀ pd ∈ pds,
      ∃ p ∈ (pds.foldl
          (fun st pd => insertPermIfAbsent st pd.1 pd.2.1 pd.2.2.1 pd.2.2.2)
          s).perms, p.name = pd.1 := by
  induction pds generalizing s with
  | nil => intro pd hpd; cases hpd
  | cons hd tl ih =>
    intro pd hpd
    rw [List.foldl_cons]
    rcases List.mem_cons.mp hpd with heq | htl
    · subst heq
      obtain ⟨p, hp, hn⟩ := insertPermIfAbsent_name_present s pd.1 pd.2.1
        pd.2.2.1 pd.2.2.2
      exact ⟨p, foldPerms_mem tl _ p hp, hn⟩
    · exact ih _ pd htl

theorem foldPerms_noop (pds : List (String × String × String × String))
    (s : Store) (h : ∀ pd ∈ pds, ∃ p ∈ s.perms, p.name = pd.1) :
    pds.foldl (fun st pd => insertPermIfAbsent st pd.1 pd.2.1 pd.2.2.1 pd.2.2.2) s
      = s := by
  induction pds with
  | nil => rfl
  | cons hd tl ih =>
    rw [List.foldl_cons, insertPermIfAbsent_noop s hd.1 hd.2.1 hd.2.2.1 hd.2.2.2
      (h hd (List.mem_cons_self hd tl))]
    exact ih (fun pd hpd => h pd (List.mem_cons_of_mem hd hpd))

theorem attachPermsAux_frame (rid : Int) (pns : List String) (st st' : Store)
    (h : attachPermsAux rid pns st = some st') :
    st'.users = st.users ∧ st'.roles = st.roles ∧ st'.perms = st.perms ∧
    st'.userRoles = st.userRoles := by
  induction pns generalizing st with
  | nil =>
    injection h with h
    subst h
    exact ⟨rfl, rfl, rfl, rfl⟩
  | cons pn rest ih =>
    unfold attachPermsAux at h
    cases hp : getPermissionIDByName st pn with
    | none => rw [hp] at h; cases h
    | some pid =>
      rw [hp] at h
      obtain ⟨h1, h2, h3, h4⟩ := ih _ h
      obtain ⟨g1, g2, g3, g4⟩ := insertRolePermIfAbsent_frame st rid pid
      exact ⟨h1.trans g1, h2.trans g2, h3.trans g3, h4.trans g4⟩

theorem attachPermsAux_mono (rid : Int) (pns : List String) (st st' : Store)
    (h : attachPermsAux rid pns st = some st') (rp : RolePermission)
    (hrp : rp ∈ st.rolePerms) : rp ∈ st'.rolePerms := by
  induction pns generalizing st with
  | nil =>
    injection h with h
    subst h
    exact hrp
  | cons pn rest ih =>
    unfold attachPermsAux at h
    cases hp : getPermissionIDByName st pn with
    | none => rw [hp] at h; cases h
    | some pid =>
      rw [hp] at h
      exact ih _ h (insertRolePermIfAbsent_mono st rid pid rp hrp)

theorem attachPermsAux_covers (rid : Int) (pns : List String) (st st' : Store)
    (h : attachPermsAux rid pns st = some st') :
    ∀ pn ∈ pns, ∃ pid, getPermissionIDByName st pn = some pid ∧
      (⟨rid, pid⟩ : RolePermission) ∈ st'.rolePerms := by
  induction pns generalizing st with
  | nil => intro pn hpn; cases hpn
  | cons pn0 rest ih =>
    intro pn hpn
    unfold attachPermsAux at h
    cases hp : getPermissionIDByName st pn0 with
    | none => rw [hp] at h; cases h
    | some pid0 =>
      rw [hp] at h
      rcases List.mem_cons.mp hpn with heq | htl
      · subst heq
        exact ⟨pid0, hp, attachPermsAux_mono rid rest _ st' h _
          (insertRolePermIfAbsent_mem_self st rid pid0)⟩
      · obtain ⟨pid, hpid, hmem⟩ := ih _ h pn htl
        have hperm : (insertRolePermIfAbsent st rid pid0).perms = st.perms :=
          (insertRolePermIfAbsent_frame st rid pid0).2.2.1
        rw [getPermissionIDByName_congr st _ hperm pn] at hpid
        exact ⟨pid, hpid, hmem⟩

theorem attachPermsAux_noop (rid : Int) (pns : List String) (st : Store)
    (h : ∀ pn ∈ pns, ∃ pid, getPermissionIDByName st pn = some pid ∧
      (⟨rid, pid⟩ : RolePermission) ∈ st.rolePerms) :
    attachPermsAux rid pns st = some st := by
  induction pns with
  | nil => rfl
  | cons pn rest ih =>
    obtain ⟨pid, hpid, hmem⟩ := h pn (List.mem_cons_self pn rest)
    unfold attachPermsAux
    rw [hpid]
    show attachPermsAux rid rest (insertRolePermIfAbsent st rid pid) = some st
    rw [insertRolePermIfAbsent_noop st rid pid hmem]
    exact ih (fun pn' hpn' => h pn' (List.mem_cons_of_mem pn hpn'))

theorem attachPerms_some (s st' : Store) (rn : String) (pns : List String)
    (h : attachPerms s rn pns = some st') :
    ∃ rid, getRoleIDByName s rn = some rid ∧
      attachPermsAux rid pns s = some st' := by
  unfold attachPerms at h
  cases hr : getRoleIDByName s rn with
  | none => rw [hr] at h; cases h
  | some rid => rw [hr] at h; exact ⟨rid, rfl, h⟩

theorem insertDefaultRoles_frame (s : Store) :
    (insertDefaultRoles s).users = s.users ∧
    (insertDefaultRoles s).perms = s.perms ∧
    (insertDefaultRoles s).userRoles = s.userRoles ∧
    (insertDefaultRoles s).rolePerms = s.rolePerms :=
  foldRoles_frame defaultRoles s

theorem insertDefaultRoles_covers (s : Store) :
    ∀ nd ∈ defaultRoles, ∃ r ∈ (insertDefaultRoles s).roles, r.name = nd.1 :=
  foldRoles_covers defaultRoles s

theorem insertDefaultPerms_frame (s : Store) :
    (insertDefaultPerms s).users = s.users ∧
    (insertDefaultPerms s).roles = s.roles ∧
    (insertDefaultPerms s).userRoles = s.userRoles ∧
    (insertDefaultPerms s).rolePerms = s.rolePerms :=
  foldPerms_frame defaultPermissions s

theorem insertDefaultPerms_covers (s : Store) :
    ∀ pd ∈ defaultPermissions, ∃ p ∈ (insertDefaultPerms s).perms, p.name = pd.1 :=
  foldPerms_covers defaultPermissions s

theorem insertDefaultPerms_roles_mem (s : Store) (r : Role) (h : r ∈ s.roles) :
    r ∈ (insertDefaultPerms s).roles := by
  have := (insertDefaultPerms_frame s).2.1
  rw [this]
  exact h

/-- A successful `initializeRBAC` leaves users and assignments untouched and
establishes the `rbacReady` post-state. -/
theorem initializeRBAC_post (s s' : Store) (h : initializeRBAC s = some s') :
    s'.users = s.users ∧ s'.userRoles = s.userRoles ∧ rbacReady s' := by
  unfold initializeRBAC at h
  cases hA : attachPerms (insertDefaultPerms (insertDefaultRoles s)) "admin"
      adminPermNames with
  | none => rw [hA] at h; cases h
  | some s3 =>
    rw [hA] at h
    obtain ⟨aid, haid, hauxA⟩ :=
      attachPerms_some (insertDefaultPerms (insertDefaultRoles s)) s3 "admin"
        adminPermNames hA
    obtain ⟨uidr, huid, hauxU⟩ := attachPerms_some s3 s' "user" userPermNames h
    obtain ⟨r1, r2, r3, r4⟩ := insertDefaultRoles_frame s
    obtain ⟨q1, q2, q3, q4⟩ := insertDefaultPerms_frame (insertDefaultRoles s)
    obtain ⟨a1, a2, a3, a4⟩ := attachPermsAux_frame aid adminPermNames
      (insertDefaultPerms (insertDefaultRoles s)) s3 hauxA
    obtain ⟨b1, b2, b3, b4⟩ := attachPermsAux_frame uidr userPermNames s3 s' hauxU
    have husers : s'.users = s.users :=
      ((b1.trans a1).trans q1).trans r1
    have hur : s'.userRoles = s.userRoles :=
      ((b4.trans a4).trans q3).trans r3
    have hroles : s'.roles = (insertDefaultPerms (insertDefaultRoles s)).roles :=
      b2.trans a2
    have hperms : s'.perms = (insertDefaultPerms (insertDefaultRoles s)).perms :=
      b3.trans a3
    refine ⟨husers, hur, ?_, ?_, ?_, ?_, ?_⟩
    · -- the admin role exists
      rw [hroles, q2]
      exact insertDefaultRoles_covers s
        ("admin", "System administrator with full access") (by simp [defaultRoles])
    · -- the user role exists
      rw [hroles, q2]
      exact insertDefaultRoles_covers s
        ("user", "Regular user with catalog access") (by simp [defaultRoles])
    · -- the full permission catalog exists
      intro pd hpd
      rw [hperms]
      exact insertDefaultPerms_covers (insertDefaultRoles s) pd hpd
    · -- admin attachments present
      intro pn hpn
      obtain ⟨pid, hpid, hmem⟩ := attachPermsAux_covers aid adminPermNames
        (insertDefaultPerms (insertDefaultRoles s)) s3 hauxA pn hpn
      refine ⟨aid, pid, ?_, ?_, ?_⟩
      · rw [getRoleIDByName_congr (insertDefaultPerms (insertDefaultRoles s)) s'
          hroles "admin"]
        exact haid
      · rw [getPermissionIDByName_congr (insertDefaultPerms (insertDefaultRoles s))
          s' hperms pn]
        exact hpid
      · exact attachPermsAux_mono uidr userPermNames s3 s' hauxU
          ⟨aid, pid⟩ hmem
    · -- user attachments present
      intro pn hpn
      obtain ⟨pid, hpid, hmem⟩ :=
        attachPermsAux_covers uidr userPermNames s3 s' hauxU pn hpn
      refine ⟨uidr, pid, ?_, ?_, hmem⟩
      · rw [getRoleIDByName_congr s3 s' b2 "user"]
        exact huid
      · rw [getPermissionIDByName_congr s3 s' b3 pn]
        exact hpid

/-- On an `rbacReady` store, `initializeRBAC` is an identity. -/
theorem initializeRBAC_noop (s : Store) (h : rbacReady s) :
    initializeRBAC s = some s := by
  obtain ⟨hadm, husr, hperms, hadmAttach, husrAttach⟩ := h
  have h1 : insertDefaultRoles s = s := by
    apply foldRoles_noop
    intro nd hnd
    simp only [defaultRoles, List.mem_cons, List.not_mem_nil, or_false] at hnd
    rcases hnd with rfl | rfl
    · exact hadm
    · exact husr
  have h2 : insertDefaultPerms s = s :=
    foldPerms_noop defaultPermissions s (fun pd hpd => hperms pd hpd)
  obtain ⟨aid, pid0, hlookAdmin, -, -⟩ :=
    hadmAttach "upload_pdf" (by simp [adminPermNames])
  obtain ⟨uidr, pid1, hlookUser, -, -⟩ :=
    husrAttach "view_pdf" (by simp [userPermNames])
  have hA : attachPerms s "admin" adminPermNames = some s := by
    unfold attachPerms
    rw [hlookAdmin]
    apply attachPermsAux_noop
    intro pn hpn
    obtain ⟨aid', pid, hl1, hl2, hmem⟩ := hadmAttach pn hpn
    rw [hlookAdmin] at hl1
    injection hl1 with hh
    subst hh
    exact ⟨pid, hl2, hmem⟩
  have hU : attachPerms s "user" userPermNames = some s := by
    unfold attachPerms
    rw [hlookUser]
    apply attachPermsAux_noop
    intro pn hpn
    obtain ⟨uidr', pid, hl1, hl2, hmem⟩ := husrAttach pn hpn
    rw [hlookUser] at hl1
    injection hl1 with hh
    subst hh
    exact ⟨pid, hl2, hmem⟩
  unfold initializeRBAC
  rw [h1, h2, hA]
  exact hU

theorem rbacReady_congr (s s' : Store) (hr : s'.roles = s.roles)
    (hp : s'.perms = s.perms) (hrp : s'.rolePerms = s.rolePerms)
    (h : rbacReady s) : rbacReady s' := by
  obtain ⟨h1, h2, h3, h4, h5⟩ := h
  refine ⟨?_, ?_, ?_, ?_, ?_⟩
  · rw [hr]; exact h1
  · rw [hr]; exact h2
  · intro pd hpd; rw [hp]; exact h3 pd hpd
  · intro pn hpn
    obtain ⟨aid, pid, ha, hb, hm⟩ := h4 pn hpn
    exact ⟨aid, pid, by rw [getRoleIDByName_congr s s' hr]; exact ha,
      by rw [getPermissionIDByName_congr s s' hp]; exact hb,
      by rw [hrp]; exact hm⟩
  · intro pn hpn
    obtain ⟨rid, pid, ha, hb, hm⟩ := h5 pn hpn
    exact ⟨rid, pid, by rw [getRoleIDByName_congr s s' hr]; exact ha,
      by rw [getPermissionIDByName_congr s s' hp]; exact hb,
      by rw [hrp]; exact hm⟩

theorem bootstrap_some (s s' : Store) (h : bootstrap s = some s') :
    ∃ s1, initializeRBAC s = some s1 ∧ assignDefaultRoles s1 = some s' := by
  unfold bootstrap at h
  cases hI : initializeRBAC s with
  | none => rw [hI] at h; cases h
  | some s1 => rw [hI] at h; exact ⟨s1, rfl, h⟩

/-! ## Bootstrap lemmas: `assignDefaultRoles` -/

theorem assignDefaultRoles_eq (s : Store) (uid aid : Int)
    (hu : getRoleIDByName s "user" = some uid)
    (ha : getRoleIDByName s "admin" = some aid) :
    assignDefaultRoles s =
      match s.users with
      | [] => some (assignLoop uid s.users s)
      | u0 :: _ =>
        if ((assignLoop uid s.users s).userRoles.filter
            (fun ur => ur.roleId == aid)).length = 0
        then some (assignRole (assignLoop uid s.users s) u0 aid none)
        else some (assignLoop uid s.users s) := by
  unfold assignDefaultRoles
  rw [hu, ha]

theorem assignDefaultRoles_some_inv (s s' : Store)
    (h : assignDefaultRoles s = some s') :
    ∃ uid aid, getRoleIDByName s "user" = some uid ∧
      getRoleIDByName s "admin" = some aid := by
  unfold assignDefaultRoles at h
  cases hu : getRoleIDByName s "user" with
  | none =>
    cases ha : getRoleIDByName s "admin" with
    | none => rw [hu, ha] at h; cases h
    | some aid => rw [hu, ha] at h; cases h
  | some uid =>
    cases ha : getRoleIDByName s "admin" with
    | none => rw [hu, ha] at h; cases h
    | some aid => exact ⟨uid, aid, rfl, rfl⟩

/-- What a successful `assignDefaultRoles` run guarantees: only the
`user_roles` table changes, every user ends with a non-empty resolved role
list, an admin-role row exists whenever a user exists, and every row is
either an old row or belongs to an existing user. -/
theorem assignDefaultRoles_post (s s' : Store) (uid aid : Int)
    (hu : getRoleIDByName s "user" = some uid)
    (ha : getRoleIDByName s "admin" = some aid)
    (h : assignDefaultRoles s = some s') :
    s'.users = s.users ∧ s'.roles = s.roles ∧ s'.perms = s.perms ∧
    s'.rolePerms = s.rolePerms ∧
    (∀ u ∈ s.users, getUserRoles s' u ≠ []) ∧
    (s.users ≠ [] → ∃ ur ∈ s'.userRoles, ur.roleId = aid) ∧
    (∀ ur ∈ s'.userRoles, ur ∈ s.userRoles ∨ ur.userId ∈ s.users) := by
  rw [assignDefaultRoles_eq s uid aid hu ha] at h
  have hruser : ∃ r ∈ s.roles, r.id = uid :=
    getRoleIDByName_exists_id s "user" uid hu
  have hradmin : ∃ r ∈ s.roles, r.id = aid :=
    getRoleIDByName_exists_id s "admin" aid ha
  cases husers : s.users with
  | nil =>
    rw [husers] at h
    injection h with h
    subst h
    refine ⟨husers, rfl, rfl, rfl, ?_, ?_, ?_⟩
    · intro u hu'
      cases hu'
    · intro hc
      exact absurd rfl hc
    · intro ur hur
      exact Or.inl hur
  | cons u0 rest =>
    rw [husers] at h
    replace h : (if ((assignLoop uid (u0 :: rest) s).userRoles.filter
        (fun ur => ur.roleId == aid)).length = 0
      then some (assignRole (assignLoop uid (u0 :: rest) s) u0 aid none)
      else some (assignLoop uid (u0 :: rest) s)) = some s' := h
    by_cases hcount : ((assignLoop uid (u0 :: rest) s).userRoles.filter
        (fun ur => ur.roleId == aid)).length = 0
    · rw [if_pos hcount] at h
      injection h with h
      subst h
      obtain ⟨l1, l2, l3, l4⟩ := assignLoop_frame uid (u0 :: rest) s
      refine ⟨?_, ?_, ?_, ?_, ?_, ?_, ?_⟩
      · rw [assignRole_users, l1]
        exact husers
      · rw [assignRole_roles, l2]
      · rw [assignRole_perms, l3]
      · rw [assignRole_rolePerms, l4]
      · intro u huu
        have hcov := assignLoop_covers uid (u0 :: rest) s hruser u huu
        by_cases hu0 : u = u0
        · subst hu0
          apply getUserRoles_assignRole_self_ne_nil
          rw [l2]
          exact hradmin
        · rw [getUserRoles_assignRole_ne _ u0 aid none u hu0]
          exact hcov
      · intro hne
        refine ⟨⟨u0, aid, none⟩, ?_, rfl⟩
        rw [assignRole_userRoles]
        exact List.mem_append_right _ (by simp)
      · intro ur hur
        rw [assignRole_userRoles] at hur
        rcases List.mem_append.mp hur with hl | hr
        · have hloop := (List.mem_filter.mp hl).1
          rcases assignLoop_mem uid (u0 :: rest) s ur hloop with hold | hnew
          · exact Or.inl hold
          · exact Or.inr hnew.1
        · have hur0 : ur = ⟨u0, aid, none⟩ := by simpa using hr
          subst hur0
          exact Or.inr (List.mem_cons_self u0 rest)
    · rw [if_neg hcount] at h
      injection h with h
      subst h
      obtain ⟨l1, l2, l3, l4⟩ := assignLoop_frame uid (u0 :: rest) s
      refine ⟨l1.trans husers, l2, l3, l4, ?_, ?_, ?_⟩
      · intro u huu
        exact assignLoop_covers uid (u0 :: rest) s hruser u huu
      · intro hne
        have hfne : (assignLoop uid (u0 :: rest) s).userRoles.filter
            (fun ur => ur.roleId == aid) ≠ [] :=
          fun hnil => hcount (by rw [hnil]; rfl)
        obtain ⟨ur, hur⟩ := List.exists_mem_of_ne_nil _ hfne
        exact ⟨ur, (List.mem_filter.mp hur).1,
          by simpa using (List.mem_filter.mp hur).2⟩
      · intro ur hur
        rcases assignLoop_mem uid (u0 :: rest) s ur hur with hold | hnew
        · exact Or.inl hold
        · exact Or.inr hnew.1

/-- On a store where every user already has a resolved role and — when any
user exists — some row carries the admin role id, `assignDefaultRoles` is an
identity. -/
theorem assignDefaultRoles_noop (s : Store) (uid aid : Int)
    (hu : getRoleIDByName s "user" = some uid)
    (ha : getRoleIDByName s "admin" = some aid)
    (hall : ∀ u ∈ s.users, getUserRoles s u ≠ [])
    (hadmin : s.users ≠ [] → ∃ ur ∈ s.userRoles, ur.roleId = aid) :
    assignDefaultRoles s = some s := by
  have hloop : ∀ (l : List Int), (∀ u ∈ l, getUserRoles s u ≠ []) →
      assignLoop uid l s = s := by
    intro l
    induction l with
    | nil => intro _; rfl
    | cons u rest ih =>
      intro hl
      unfold assignLoop
      have hne : ¬ (getUserRoles s u).isEmpty = true := fun hempty =>
        hl u (List.mem_cons_self u rest) (List.isEmpty_eq_true.mp hempty)
      rw [if_neg hne]
      exact ih (fun u' hu' => hl u' (List.mem_cons_of_mem u hu'))
  rw [assignDefaultRoles_eq s uid aid hu ha]
  cases husers : s.users with
  | nil =>
    show some (assignLoop uid [] s) = some s
    rw [hloop [] (fun u hu' => absurd hu' (List.not_mem_nil u))]
  | cons u0 rest =>
    show (if ((assignLoop uid (u0 :: rest) s).userRoles.filter
        (fun ur => ur.roleId == aid)).length = 0
      then some (assignRole (assignLoop uid (u0 :: rest) s) u0 aid none)
      else some (assignLoop uid (u0 :: rest) s)) = some s
    rw [hloop (u0 :: rest) (fun u hu' => hall u (husers ▸ hu'))]
    have hfne : s.userRoles.filter (fun ur => ur.roleId == aid) ≠ [] := by
      obtain ⟨ur, hm, hrid⟩ := hadmin (by rw [husers]; simp)
      intro hnil
      have hmem : ur ∈ s.userRoles.filter (fun ur => ur.roleId == aid) :=
        List.mem_filter.mpr ⟨hm, by simp [hrid]⟩
      rw [hnil] at hmem
      cases hmem
    rw [if_neg (fun hzero => hfne (List.length_eq_zero.mp hzero))]

/-! ## Claim theorems: bootstrap -/

/-- C4: after a successful bootstrap pass (`createTables` = `initializeRBAC`
then `assignDefaultRoles`) on a schema-wellformed store, every existing
identity resolves to at least one role, and whenever at least one identity
exists some identity holds the `admin` role. -/
theorem bootstrap_roles_admin (s s' : Store) (hwf : s.WF)
    (hb : bootstrap s = some s') :
    s'.users.all (fun u => ! (getUserRoles s' u).isEmpty) = true ∧
    (s'.users ≠ [] → s'.users.any (holdsRole s' "admin") = true) := by
  obtain ⟨s1, hI, hA⟩ := bootstrap_some s s' hb
  obtain ⟨husers1, huserRoles1, hready⟩ := initializeRBAC_post s s1 hI
  obtain ⟨aid, haid⟩ := getRoleIDByName_of_mem s1 "admin" hready.1
  obtain ⟨uidr, huid⟩ := getRoleIDByName_of_mem s1 "user" hready.2.1
  obtain ⟨p1, p2, p3, p4, pcov, padmin, pmem⟩ :=
    assignDefaultRoles_post s1 s' uidr aid huid haid hA
  constructor
  · rw [List.all_eq_true]
    intro u hu
    have hne := pcov u (p1 ▸ hu)
    simp [hne]
  · intro hne
    rw [List.any_eq_true]
    obtain ⟨ur, hm, hrid⟩ := padmin (p1 ▸ hne)
    refine ⟨ur.userId, ?_, ?_⟩
    · rcases pmem ur hm with hold | husr
      · obtain ⟨-, -, -, -, -, -, -, hfk, -⟩ := hwf
        have hold' : ur ∈ s.userRoles := huserRoles1 ▸ hold
        have hin : ur.userId ∈ s.users := (hfk ur hold').1
        rw [p1, husers1]
        exact hin
      · rw [p1]
        exact husr
    · unfold holdsRole
      rw [getRoleIDByName_congr s1 s' p2 "admin", haid]
      show s'.userRoles.any
        (fun r => r.userId == ur.userId && r.roleId == aid) = true
      rw [List.any_eq_true]
      exact ⟨ur, hm, by simp [hrid]⟩

/-- Witness for C4: bootstrapping a one-user store gives the user a role and
makes it the admin. -/
theorem bootstrap_roles_admin_witness :
    exStoreOneUser.WF ∧ bootstrap exStoreOneUser = some exStoreOneUserB ∧
    exStoreOneUserB.users.all
      (fun u => ! (getUserRoles exStoreOneUserB u).isEmpty) = true ∧
    exStoreOneUserB.users.any (holdsRole exStoreOneUserB "admin") = true := by
  have hb : bootstrap exStoreOneUser = some exStoreOneUserB := by decide
  have h := bootstrap_roles_admin exStoreOneUser exStoreOneUserB (by decide) hb
  exact ⟨by decide, hb, h.1, h.2 (by decide)⟩

/-- C5: during bootstrap, when no `user_roles` row carries the admin role id
(no identity holds `admin`) and at least one identity exists, exactly one
admin assignment is made afterwards and it is for the earliest-created
identity (the head of the creation-ordered user list), granted by the
system (`assigned_by` NULL); when some row already carries the admin role
id, the admin assignments are left exactly as they were — nobody is
promoted and nobody is demoted. -/
theorem assignDefaultRoles_admin_promotion (s s' : Store) (aid u0 : Int)
    (rest : List Int) (hwf : s.WF)
    (hA : assignDefaultRoles s = some s')
    (haid : getRoleIDByName s "admin" = some aid) :
    (s.userRoles.filter (fun ur => ur.roleId == aid) = [] →
      s.users = u0 :: rest →
      s'.userRoles.filter (fun ur => ur.roleId == aid) = [⟨u0, aid, none⟩]) ∧
    ((∃ ur ∈ s.userRoles, ur.roleId = aid) →
      s'.userRoles.filter (fun ur => ur.roleId == aid)
        = s.userRoles.filter (fun ur => ur.roleId == aid)) := by
  obtain ⟨uid, aid2, hu, ha2⟩ := assignDefaultRoles_some_inv s s' hA
  have haideq : aid2 = aid := by
    have h12 := ha2.symm.trans haid
    injection h12
  subst haideq
  have hne : uid ≠ aid2 :=
    getRoleIDByName_distinct s hwf.2.1 "user" "admin" uid aid2 hu haid
      (by decide)
  rw [assignDefaultRoles_eq s uid aid2 hu haid] at hA
  constructor
  · intro hempty husers
    rw [husers] at hA
    replace hA : (if ((assignLoop uid (u0 :: rest) s).userRoles.filter
        (fun ur => ur.roleId == aid2)).length = 0
      then some (assignRole (assignLoop uid (u0 :: rest) s) u0 aid2 none)
      else some (assignLoop uid (u0 :: rest) s)) = some s' := hA
    have hflt : (assignLoop uid (u0 :: rest) s).userRoles.filter
        (fun ur => ur.roleId == aid2)
        = s.userRoles.filter (fun ur => ur.roleId == aid2) :=
      assignLoop_filter_role uid aid2 (u0 :: rest) s hne
    have hcnt : ((assignLoop uid (u0 :: rest) s).userRoles.filter
        (fun ur => ur.roleId == aid2)).length = 0 := by
      rw [hflt, hempty]
      rfl
    rw [if_pos hcnt] at hA
    injection hA with hA
    subst hA
    rw [assignRole_userRoles, List.filter_append, List.filter_filter]
    have h1 : ((assignLoop uid (u0 :: rest) s).userRoles.filter
        (fun ur => (ur.roleId == aid2)
          && ! (ur.userId == u0 && ur.roleId == aid2))) = [] := by
      rw [List.filter_eq_nil_iff]
      intro ur hur hcontra
      rw [Bool.and_eq_true] at hcontra
      have hmem : ur ∈ (assignLoop uid (u0 :: rest) s).userRoles.filter
          (fun ur => ur.roleId == aid2) := List.mem_filter.mpr ⟨hur, hcontra.1⟩
      rw [hflt, hempty] at hmem
      cases hmem
    rw [h1]
    simp
  · intro hex
    cases husers : s.users with
    | nil =>
      rw [husers] at hA
      injection hA with hA
      subst hA
      rfl
    | cons u0' rest' =>
      rw [husers] at hA
      replace hA : (if ((assignLoop uid (u0' :: rest') s).userRoles.filter
          (fun ur => ur.roleId == aid2)).length = 0
        then some (assignRole (assignLoop uid (u0' :: rest') s) u0' aid2 none)
        else some (assignLoop uid (u0' :: rest') s)) = some s' := hA
      have hflt := assignLoop_filter_role uid aid2 (u0' :: rest') s hne
      obtain ⟨ur0, hm0, hr0⟩ := hex
      have hcnt : ¬ ((assignLoop uid (u0' :: rest') s).userRoles.filter
          (fun ur => ur.roleId == aid2)).length = 0 := by
        rw [hflt]
        intro hzero
        have hnil := List.length_eq_zero.mp hzero
        have hmem : ur0 ∈ s.userRoles.filter (fun ur => ur.roleId == aid2) :=
          List.mem_filter.mpr ⟨hm0, by simp [hr0]⟩
        rw [hnil] at hmem
        cases hmem
      rw [if_neg hcnt] at hA
      injection hA with hA
      subst hA
      exact hflt

/-- Witness for C5: two users, baseline roles present, no assignments — the
earliest user (id 1) is the only one promoted to `admin` (role id 1). -/
theorem assignDefaultRoles_admin_promotion_witness :
    exStoreC5.WF ∧ assignDefaultRoles exStoreC5 = some exStoreC5B ∧
    exStoreC5B.userRoles.filter (fun ur => ur.roleId == 1) = [⟨1, 1, none⟩] := by
  have hA : assignDefaultRoles exStoreC5 = some exStoreC5B := by decide
  refine ⟨by decide, hA, ?_⟩
  exact (assignDefaultRoles_admin_promotion exStoreC5 exStoreC5B 1 1 [2]
    (by decide) hA (by decide)).1 (by decide) (by decide)

/-- C6: running the bootstrap pass a second time on a store where it has
already completed returns exactly the same store — the roles, permissions,
role-permission attachments and user-role assignments (granter attributions
included) are all unchanged. -/
theorem bootstrap_idempotent (s s' : Store) (hb : bootstrap s = some s') :
    bootstrap s' = some s' := by
  obtain ⟨s1, hI, hA⟩ := bootstrap_some s s' hb
  obtain ⟨husers1, huserRoles1, hready1⟩ := initializeRBAC_post s s1 hI
  obtain ⟨aid, haid⟩ := getRoleIDByName_of_mem s1 "admin" hready1.1
  obtain ⟨uidr, huid⟩ := getRoleIDByName_of_mem s1 "user" hready1.2.1
  obtain ⟨p1, p2, p3, p4, pcov, padmin, -⟩ :=
    assignDefaultRoles_post s1 s' uidr aid huid haid hA
  have hready' : rbacReady s' := rbacReady_congr s1 s' p2 p3 p4 hready1
  unfold bootstrap
  rw [initializeRBAC_noop s' hready']
  show assignDefaultRoles s' = some s'
  have haid' : getRoleIDByName s' "admin" = some aid := by
    rw [getRoleIDByName_congr s1 s' p2 "admin"]
    exact haid
  have huid' : getRoleIDByName s' "user" = some uidr := by
    rw [getRoleIDByName_congr s1 s' p2 "user"]
    exact huid
  exact assignDefaultRoles_noop s' uidr aid huid' haid'
    (fun u hu => pcov u (p1 ▸ hu)) (fun hne => padmin (p1 ▸ hne))

/-- Witness for C6: re-running bootstrap on the bootstrapped one-user store
returns it unchanged. -/
theorem bootstrap_idempotent_witness :
    bootstrap exStoreOneUser = some exStoreOneUserB ∧
    bootstrap exStoreOneUserB = some exStoreOneUserB :=
  ⟨by decide, bootstrap_idempotent exStoreOneUser exStoreOneUserB (by decide)⟩

end LibraryMS
